import Mathlib

/-!
# Face detection count and narration (`main.go`)

A shallow embedding of the program's count store (`SaveLog`), its narration
tick (`InitializedSpeak`), one cycle of the detection loop
(`CameraInitialization`) and the goroutine structure set up by `main`.

Conventions.
* A Go `string` and the content of a file are sequences of bytes, `Bytes`.
* The file `face_count.log` is a `Store`: absent, or present with a content.
* Outcomes decided by the outside world (does `os.OpenFile` succeed, is the
  frame empty, which key was pressed, ...) are explicit inputs.
* Goroutines are threads of a labelled transition system: one `Action` is one
  atomic step of one thread, an execution is a list of actions.
-/

namespace FaceCount

/-! ## Bytes and the Go library functions the program calls -/

/-- A Go string or a file content: a sequence of bytes. -/
abbrev Bytes := List Nat

/-- The bytes of an ASCII string literal of the source. -/
def lit (s : String) : Bytes := s.toList.map Char.toNat

/-- The file `LogFileName` on disk: `none` when it does not exist. -/
abbrev Store := Option Bytes

/-- Go `strconv.Itoa`: the decimal text of an `int`, with a minus sign when negative. -/
def Itoa (i : Int) : Bytes :=
  if i < 0 then 45 :: (Nat.toDigits 10 i.natAbs).map Char.toNat
  else (Nat.toDigits 10 i.toNat).map Char.toNat

/-- Go `utf8.RuneSelf`: bytes below it are single-byte runes. -/
def RuneSelf : Nat := 0x80

/-- Go `utf8.RuneError`, the replacement rune U+FFFD. -/
def RuneError : Nat := 0xFFFD

/-- Go `unicode.MaxRune`. -/
def MaxRune : Nat := 0x10FFFF

/-- Go `unicode.MaxASCII`. -/
def MaxASCII : Nat := 0x7F

/-- Table `first` of Go package `unicode/utf8`: information about the first
byte of a UTF-8 sequence (`as` = 0xF0 ASCII, `xx` = 0xF1 invalid, otherwise
accept-range index in the high nibble and size in the low one). -/
def first (b : Nat) : Nat :=
  if b < 0x80 then 0xF0
  else if b < 0xC2 then 0xF1
  else if b < 0xE0 then 0x02
  else if b = 0xE0 then 0x13
  else if b < 0xED then 0x03
  else if b = 0xED then 0x23
  else if b < 0xF0 then 0x03
  else if b = 0xF0 then 0x34
  else if b < 0xF4 then 0x04
  else if b = 0xF4 then 0x44
  else 0xF1

/-- Table `acceptRanges` of Go package `unicode/utf8`: the range `(lo, hi)`
allowed for the second byte of a sequence. -/
def acceptRanges (i : Nat) : Nat × Nat :=
  match i with
  | 0 => (0x80, 0xBF)
  | 1 => (0xA0, 0xBF)
  | 2 => (0x80, 0x9F)
  | 3 => (0x90, 0xBF)
  | 4 => (0x80, 0x8F)
  | _ => (0, 0)

/-- Go `utf8.DecodeRuneInString`: the first rune of `s` and its width in
bytes; `(RuneError, 1)` for an invalid encoding, `(RuneError, 0)` for the
empty string. The branch-free mask of the Go code for `x >= as` selects
`s[0]` when `x = as` and `RuneError` when `x = xx`. -/
def DecodeRuneInString (s : Bytes) : Nat × Nat :=
  match s with
  | [] => (RuneError, 0)
  | s0 :: _ =>
    let x := first s0
    if x ≥ 0xF0 then
      (if x % 2 = 1 then RuneError else s0, 1)
    else
      let sz := x &&& 7
      let accept := acceptRanges (x >>> 4)
      if s.length < sz then (RuneError, 1)
      else
        let s1 := s.getD 1 0
        if s1 < accept.1 ∨ accept.2 < s1 then (RuneError, 1)
        else if sz ≤ 2 then (((s0 &&& 0x1F) <<< 6) ||| (s1 &&& 0x3F), 2)
        else
          let s2 := s.getD 2 0
          if s2 < 0x80 ∨ 0xBF < s2 then (RuneError, 1)
          else if sz ≤ 3 then
            (((s0 &&& 0x0F) <<< 12) ||| ((s1 &&& 0x3F) <<< 6) ||| (s2 &&& 0x3F), 3)
          else
            let s3 := s.getD 3 0
            if s3 < 0x80 ∨ 0xBF < s3 then (RuneError, 1)
            else
              (((s0 &&& 0x07) <<< 18) ||| ((s1 &&& 0x3F) <<< 12) |||
                ((s2 &&& 0x3F) <<< 6) ||| (s3 &&& 0x3F), 4)

/-- Table `asciiFold` of Go package `unicode`: the next rune of the
case-folding orbit of an ASCII rune (`k` goes to the Kelvin sign U+212A and
`s` to the long s U+017F). -/
def asciiFold (r : Nat) : Nat :=
  if 0x41 ≤ r ∧ r ≤ 0x5A then r + 0x20
  else if r = 0x6B then 0x212A
  else if r = 0x73 then 0x017F
  else if 0x61 ≤ r ∧ r ≤ 0x7A then r - 0x20
  else r

/-- Go `unicode.SimpleFold`. The Unicode tables consulted for runes above
ASCII (`caseOrbit`, `CaseRanges`) are the parameter `tbl`. -/
def SimpleFold (tbl : Nat → Nat) (r : Nat) : Nat :=
  if r > MaxRune then r
  else if r ≤ MaxASCII then asciiFold r
  else tbl r

/-- The inner loop of `strings.EqualFold`:
`for r != sr && r < tr { r = unicode.SimpleFold(r) }`; `none` when the fuel
runs out before the loop ends. -/
def foldOrbit (tbl : Nat → Nat) : Nat → Nat → Nat → Nat → Option Nat
  | 0, r, sr, tr => if r ≠ sr ∧ r < tr then none else some r
  | k + 1, r, sr, tr =>
    if r ≠ sr ∧ r < tr then foldOrbit tbl k (SimpleFold tbl r) sr tr else some r

/-- Extraction of the first rune in `strings.EqualFold`: a byte below
`RuneSelf` is the rune, anything else goes through `DecodeRuneInString`.
Returns the rune and the rest of the string. -/
def firstRune (s : Bytes) : Nat × Bytes :=
  match s with
  | [] => (RuneError, [])
  | b :: rest =>
    if b < RuneSelf then (b, rest)
    else ((DecodeRuneInString s).1, s.drop (DecodeRuneInString s).2)

/-- The loop of Go `strings.EqualFold`, with `n` bounding the number of
iterations and `fuel` the inner orbit loop. -/
def EqualFoldLoop (tbl : Nat → Nat) (fuel : Nat) : Nat → Bytes → Bytes → Option Bool
  | 0, _, _ => none
  | n + 1, s, t =>
    if s ≠ [] ∧ t ≠ [] then
      let sr := (firstRune s).1
      let tr := (firstRune t).1
      if tr = sr then EqualFoldLoop tbl fuel n (firstRune s).2 (firstRune t).2
      else
        let lo := if tr < sr then tr else sr
        let hi := if tr < sr then sr else tr
        if hi < RuneSelf then
          if 0x41 ≤ lo ∧ lo ≤ 0x5A ∧ hi = lo + 0x61 - 0x41 then
            EqualFoldLoop tbl fuel n (firstRune s).2 (firstRune t).2
          else some false
        else
          match foldOrbit tbl fuel (SimpleFold tbl lo) lo hi with
          | none => none
          | some r =>
            if r = hi then EqualFoldLoop tbl fuel n (firstRune s).2 (firstRune t).2
            else some false
    else some (decide (s = t))

/-- Go `strings.EqualFold`: equality of `s` and `t` under simple Unicode case
folding, as the rune-by-rune loop of the library (later releases put a
byte-by-byte pass for ASCII in front of the same loop). Every iteration
removes at least one byte of `s`, so `s.length + 1` iterations are enough;
`none` only when `fuel` is too small for the orbit loop. -/
def EqualFold (tbl : Nat → Nat) (fuel : Nat) (s t : Bytes) : Option Bool :=
  EqualFoldLoop tbl fuel (s.length + 1) s t

/-- Go `fmt.Sprintf("Human face %s count detected", contentTxt)`: the verb
`%s` copies the bytes of its string operand. -/
def SprintfHumanFace (contentTxt : Bytes) : Bytes :=
  lit "Human face " ++ contentTxt ++ lit " count detected"

/-! ## The count store: `SaveLog` and the read of `InitializedSpeak` -/

/-- Rectangle `image.Rectangle` returned by the classifier. -/
structure Rect where
  minX : Int
  minY : Int
  maxX : Int
  maxY : Int
  deriving DecidableEq

/-- The effects of the program on the outside world, in program order. -/
inductive Event
  | printErr
  | printCascadeError
  | printCameraInit
  | printCannotRead
  | detect
  | goSaveLog (faceCountDetected : Int)
  | rectangle (r : Rect)
  | putText (x y : Int)
  | imShow
  | logPrintln
  | logFatal
  | speak (text : Bytes)
  deriving DecidableEq

/-- What `SaveLog` holds between `os.OpenFile` and `f.WriteString`: the text
to write and whether `f` is a valid file (`false`: the open failed and `f`
is nil). -/
structure Opened where
  text : Bytes
  valid : Bool
  deriving DecidableEq

/-- Go `os.OpenFile(LogFileName, os.O_CREATE|os.O_WRONLY, 0644)`: when it
succeeds the file exists afterwards, created empty if it was absent, its
content untouched otherwise (no `O_TRUNC`), and the handle is at offset 0
(no `O_APPEND`). `openOk` is the outcome decided by the operating system. -/
def OpenFile (openOk : Bool) (st : Store) : Store × Bool :=
  if openOk then (some (st.getD []), true) else (st, false)

/-- Go `f.WriteString(text)` on a handle at offset 0: the bytes of `text`
replace the first `text.length` bytes of the file and the rest of the old
content stays. Fails on a nil handle; `writeOk` is the outcome decided by
the operating system. Returns the store and whether the write succeeded. -/
def WriteString (writeOk : Bool) (valid : Bool) (text : Bytes) (st : Store) : Store × Bool :=
  if valid && writeOk then
    match st with
    | some old => (some (text ++ old.drop text.length), true)
    | none => (none, true)
  else (st, false)

/-- Lines 131-140 of `SaveLog`: the text of the count and the open of the file. -/
def SaveLogOpen (openOk : Bool) (faceCountDetected : Int) (st : Store) :
    Store × Opened × List Event :=
  let text := if faceCountDetected > 0 then Itoa faceCountDetected else lit "0"
  let r := OpenFile openOk st
  (r.1, ⟨text, r.2⟩, if r.2 then [] else [Event.logPrintln])

/-- Line 143 of `SaveLog`, after the sleep: the write of the text. -/
def SaveLogWrite (writeOk : Bool) (o : Opened) (st : Store) : Store × List Event :=
  let r := WriteString writeOk o.valid o.text st
  (r.1, if r.2 then [] else [Event.logPrintln])

/-- Function `SaveLog`, run with no other thread in between. -/
def SaveLog (openOk writeOk : Bool) (faceCountDetected : Int) (st : Store) :
    Store × List Event :=
  let a := SaveLogOpen openOk faceCountDetected st
  let b := SaveLogWrite writeOk a.2.1 a.1
  (b.1, a.2.2 ++ b.2)

/-- Go `ioutil.ReadFile(LogFileName)`: the whole content, or an error
(`none`) when the file does not exist or the read fails (`readOk = false`). -/
def ReadFile (readOk : Bool) (st : Store) : Option Bytes :=
  if readOk then st else none

/-- How one pass through the body of the loop of `InitializedSpeak` ends. -/
inductive TickOutcome
  | fatal
  | next (spoken : List Bytes)
  deriving DecidableEq

/-- Lines 155-163 of `InitializedSpeak`, one tick after its sleep: `fatal`
is `log.Fatal` (the process exits), `next spoken` goes on to the next tick
after the calls `Speak text` for the texts of `spoken`. `none` only when
`strings.EqualFold` runs out of fuel. -/
def InitializedSpeakTick (tbl : Nat → Nat) (fuel : Nat) (readOk : Bool) (st : Store) :
    Option TickOutcome :=
  match ReadFile readOk st with
  | none => some TickOutcome.fatal
  | some contentTxt =>
    match EqualFold tbl fuel contentTxt (lit "0") with
    | none => none
    | some eq =>
      if false = eq then some (TickOutcome.next [SprintfHumanFace contentTxt])
      else some (TickOutcome.next [])

/-! ## One cycle of the loop of `CameraInitialization` -/

/-- What the outside world decides during one pass through the loop body. -/
structure Frame where
  readOk : Bool
  empty : Bool
  rects : List Rect
  textSizeX : Int
  key : Int
  deriving DecidableEq

/-- How one pass through the loop body ends: `next` goes to the next
acquisition, `brk` is the `break`, `ret` the `return`. -/
inductive Control
  | next
  | brk
  | ret
  deriving DecidableEq

/-- Result of one pass through the loop body: its effects in order, the
arguments of the `SaveLog` goroutines it started, and how it ends. -/
structure CycleResult where
  events : List Event
  spawned : List Int
  control : Control
  deriving DecidableEq

/-- Arithmetic of the Go type `int` (64 bits, two's complement): the value
of `x` wrapped into the range from `-2^63` to `2^63 - 1`. -/
def wrapInt (x : Int) : Int :=
  (x + 9223372036854775808) % 18446744073709551616 - 9223372036854775808

/-- Lines 110-115: rectangle and label of one face (`/` of Go truncates,
`+` and `-` wrap). -/
def drawFace (textSizeX : Int) (r : Rect) : List Event :=
  [Event.rectangle r,
   Event.putText (wrapInt (wrapInt (r.minX + r.minX.tdiv 2) - textSizeX.tdiv 2))
     (wrapInt (r.minY - 2))]

/-- Lines 93-121: the body of the `for` loop of `CameraInitialization`. -/
def cameraCycle (f : Frame) : CycleResult :=
  if !f.readOk then ⟨[Event.printCannotRead], [], Control.ret⟩
  else if f.empty then ⟨[], [], Control.next⟩
  else
    let faceCountDetected : Int := f.rects.length
    ⟨[Event.detect, Event.goSaveLog faceCountDetected]
        ++ (f.rects.map (drawFace f.textSizeX)).flatten ++ [Event.imShow],
      [faceCountDetected],
      if f.key ≥ 0 then Control.brk else Control.next⟩

/-! ## The goroutines of `main` as a transition system -/

/-- Program counter of `main`. -/
inductive MainPc
  | start
  | added
  | cameraStarted
  | waiting
  | returned
  deriving DecidableEq

/-- Program counter of the goroutine `CameraInitialization`: `opening`
before line 64, `loop` at the head of the `for`, `atDone` after the `break`
and before `wg.Done()`, `finished` after `wg.Done()`, `returnedEarly` after
one of the `return` statements of lines 67, 88 and 95. -/
inductive CamPc
  | notStarted
  | opening
  | loop
  | atDone
  | finished
  | returnedEarly
  deriving DecidableEq

/-- Program counter of the goroutine `InitializedSpeak`. -/
inductive SpeakPc
  | notStarted
  | running
  | fatal
  deriving DecidableEq

/-- State of one goroutine `SaveLog`: started with its argument, asleep
between the open and the write, or finished. -/
inductive SaveTask
  | spawned (faceCountDetected : Int)
  | sleeping (o : Opened)
  | finished
  deriving DecidableEq

/-- State of the process. `tasks` holds the `SaveLog` goroutines in the
order in which they were started; `exited` is set once the process is gone. -/
structure State where
  mainPc : MainPc
  camPc : CamPc
  speakPc : SpeakPc
  wg : Int
  store : Store
  tasks : List SaveTask
  events : List Event
  exited : Bool
  deriving DecidableEq

/-- Start of the process, with the file as found on disk. -/
def init (st : Store) : State :=
  ⟨MainPc.start, CamPc.notStarted, SpeakPc.notStarted, 0, st, [], [], false⟩

/-- One atomic step of one thread, with the outcomes the outside world decides. -/
inductive Action
  | mainAdd
  | mainGoCamera
  | mainGoSpeak
  | mainWait
  | camOpen (openOk loadOk : Bool)
  | camCycle (f : Frame)
  | camDone
  | saveOpen (i : Nat) (openOk : Bool)
  | saveWrite (i : Nat) (writeOk : Bool)
  | speakTick (readOk : Bool)
  deriving DecidableEq

/-- Line 177, `wg.Add(2)`. -/
def mainAdd (s : State) : Option State :=
  if s.mainPc = MainPc.start then
    some { s with mainPc := MainPc.added, wg := s.wg + 2 }
  else none

/-- Line 180, `go CameraInitialization()`. -/
def mainGoCamera (s : State) : Option State :=
  if s.mainPc = MainPc.added then
    some { s with mainPc := MainPc.cameraStarted, camPc := CamPc.opening }
  else none

/-- Line 181, `go InitializedSpeak()`. -/
def mainGoSpeak (s : State) : Option State :=
  if s.mainPc = MainPc.cameraStarted then
    some { s with mainPc := MainPc.waiting, speakPc := SpeakPc.running }
  else none

/-- Line 184, `wg.Wait()` returning: enabled only when the counter is zero;
`main` then returns and the process is gone. -/
def mainWait (s : State) : Option State :=
  if s.mainPc = MainPc.waiting ∧ s.wg = 0 then
    some { s with mainPc := MainPc.returned, exited := true }
  else none

/-- Lines 64-91 of `CameraInitialization`: open of the camera and load of
the classifier, each with a `return` on failure. The deferred `Close` calls
only release the camera, the window, the matrix and the classifier and are
left out. -/
def camOpen (s : State) (openOk loadOk : Bool) : Option State :=
  if s.camPc = CamPc.opening then
    if !openOk then
      some { s with camPc := CamPc.returnedEarly, events := s.events ++ [Event.printErr] }
    else if !loadOk then
      some { s with camPc := CamPc.returnedEarly,
                    events := s.events ++ [Event.printCascadeError] }
    else
      some { s with camPc := CamPc.loop, events := s.events ++ [Event.printCameraInit] }
  else none

/-- Lines 92-122: one pass through the loop body, see `cameraCycle`. -/
def camCycle (s : State) (f : Frame) : Option State :=
  if s.camPc = CamPc.loop then
    some { s with
      camPc := (match (cameraCycle f).control with
        | Control.next => CamPc.loop
        | Control.brk => CamPc.atDone
        | Control.ret => CamPc.returnedEarly),
      tasks := s.tasks ++ (cameraCycle f).spawned.map SaveTask.spawned,
      events := s.events ++ (cameraCycle f).events }
  else none

/-- Line 125, `wg.Done()` (a negative counter is a panic, which ends the process). -/
def camDone (s : State) : Option State :=
  if s.camPc = CamPc.atDone then
    if s.wg - 1 < 0 then some { s with exited := true }
    else some { s with camPc := CamPc.finished, wg := s.wg - 1 }
  else none

/-- The first half of the `SaveLog` goroutine number `i`, up to its sleep. -/
def saveOpen (s : State) (i : Nat) (openOk : Bool) : Option State :=
  match s.tasks.get? i with
  | some (SaveTask.spawned n) =>
    some { s with store := (SaveLogOpen openOk n s.store).1,
                  tasks := s.tasks.set i (SaveTask.sleeping (SaveLogOpen openOk n s.store).2.1),
                  events := s.events ++ (SaveLogOpen openOk n s.store).2.2 }
  | _ => none

/-- The second half of the `SaveLog` goroutine number `i`: its write. -/
def saveWrite (s : State) (i : Nat) (writeOk : Bool) : Option State :=
  match s.tasks.get? i with
  | some (SaveTask.sleeping o) =>
    some { s with store := (SaveLogWrite writeOk o s.store).1,
                  tasks := s.tasks.set i SaveTask.finished,
                  events := s.events ++ (SaveLogWrite writeOk o s.store).2 }
  | _ => none

/-- One tick of `InitializedSpeak`, see `InitializedSpeakTick`. -/
def speakTick (tbl : Nat → Nat) (fuel : Nat) (s : State) (readOk : Bool) : Option State :=
  if s.speakPc = SpeakPc.running then
    match InitializedSpeakTick tbl fuel readOk s.store with
    | none => none
    | some TickOutcome.fatal =>
      some { s with speakPc := SpeakPc.fatal, exited := true,
                    events := s.events ++ [Event.logFatal] }
    | some (TickOutcome.next spoken) =>
      some { s with events := s.events ++ spoken.map Event.speak }
  else none

/-- The step of the process under one action; `none` when the action is not
enabled in the state (wrong program counter, process gone, `wg.Wait` still
blocked) or `strings.EqualFold` is out of fuel. -/
def step (tbl : Nat → Nat) (fuel : Nat) (s : State) (a : Action) : Option State :=
  if s.exited then none
  else
    match a with
    | Action.mainAdd => mainAdd s
    | Action.mainGoCamera => mainGoCamera s
    | Action.mainGoSpeak => mainGoSpeak s
    | Action.mainWait => mainWait s
    | Action.camOpen openOk loadOk => camOpen s openOk loadOk
    | Action.camCycle f => camCycle s f
    | Action.camDone => camDone s
    | Action.saveOpen i openOk => saveOpen s i openOk
    | Action.saveWrite i writeOk => saveWrite s i writeOk
    | Action.speakTick readOk => speakTick tbl fuel s readOk

/-- An execution: the actions taken one after the other. -/
def run (tbl : Nat → Nat) (fuel : Nat) : State → List Action → Option State
  | s, [] => some s
  | s, a :: rest =>
    match step tbl fuel s a with
    | none => none
    | some s1 => run tbl fuel s1 rest

/-- States the process can be in, from its start with any file on disk. -/
def Reachable (tbl : Nat → Nat) (fuel : Nat) (s : State) : Prop :=
  ∃ (st : Store) (acts : List Action), run tbl fuel (init st) acts = some s

/-! ## Invariant and sample states -/

/-- What holds in every state the process can reach: `main` has not
returned; the goroutines are started in the order of `main`; once
`wg.Add(2)` has run the counter is 2, or 1 after the `wg.Done()` of
`CameraInitialization`; the process is gone exactly when `InitializedSpeak`
has called `log.Fatal`. -/
def Inv (s : State) : Prop :=
  s.mainPc ≠ MainPc.returned
    ∧ (s.mainPc = MainPc.start → s.wg = 0)
    ∧ (s.mainPc = MainPc.start ∨ s.mainPc = MainPc.added → s.camPc = CamPc.notStarted)
    ∧ (s.mainPc ≠ MainPc.waiting → s.speakPc = SpeakPc.notStarted)
    ∧ (s.mainPc = MainPc.waiting → s.speakPc ≠ SpeakPc.notStarted)
    ∧ (s.mainPc = MainPc.cameraStarted ∨ s.mainPc = MainPc.waiting →
        s.camPc ≠ CamPc.notStarted)
    ∧ (s.mainPc ≠ MainPc.start → s.wg = if s.camPc = CamPc.finished then 1 else 2)
    ∧ (s.exited = true ↔ s.speakPc = SpeakPc.fatal)

/-- A state of the process with both loops running and the file holding `2`. -/
def running2 : State :=
  ⟨MainPc.waiting, CamPc.loop, SpeakPc.running, 2, some (lit "2"), [],
    [Event.printCameraInit], false⟩

/-- The actions that bring the process from its start to both loops running. -/
def startUp : List Action :=
  [Action.mainAdd, Action.mainGoCamera, Action.mainGoSpeak, Action.camOpen true true]

/-- A frame on which the classifier finds `n` faces and no key is pressed. -/
def facesFrame (n : Nat) : Frame :=
  ⟨true, false, List.replicate n ⟨0, 0, 1, 1⟩, 10, -1⟩

/-! ## Facts about the library functions -/

theorem le_or_left (a b : Nat) : a ≤ a ||| b :=
  Nat.le_of_testBit (by intro i h; simp [h])

theorem le_or_right (a b : Nat) : b ≤ a ||| b :=
  Nat.le_of_testBit (by intro i h; simp [h])

theorem and_mask5 (a : Nat) : a &&& 0x1F = a % 32 := Nat.and_pow_two_sub_one_eq_mod a 5

theorem and_mask6 (a : Nat) : a &&& 0x3F = a % 64 := Nat.and_pow_two_sub_one_eq_mod a 6

theorem and_mask4 (a : Nat) : a &&& 0x0F = a % 16 := Nat.and_pow_two_sub_one_eq_mod a 4

theorem and_mask3 (a : Nat) : a &&& 0x07 = a % 8 := Nat.and_pow_two_sub_one_eq_mod a 3

/-- A two-byte sequence with a lead byte of `0xC2..0xDF` decodes above ASCII. -/
theorem two_byte_ge (a b : Nat) (h : 2 ≤ a % 32) : 0x80 ≤ ((a &&& 0x1F) <<< 6) ||| b := by
  have h1 := le_or_left ((a &&& 0x1F) <<< 6) b
  rw [and_mask5, Nat.shiftLeft_eq] at *
  omega

/-- A three-byte sequence accepted by the decoder decodes above ASCII. -/
theorem three_byte_ge (a b c : Nat) (h : 1 ≤ a % 16 ∨ 32 ≤ b % 64) :
    0x80 ≤ ((a &&& 0x0F) <<< 12) ||| ((b &&& 0x3F) <<< 6) ||| c := by
  have h1 := le_or_left (((a &&& 0x0F) <<< 12) ||| ((b &&& 0x3F) <<< 6)) c
  have h2 := le_or_left ((a &&& 0x0F) <<< 12) ((b &&& 0x3F) <<< 6)
  have h3 := le_or_right ((a &&& 0x0F) <<< 12) ((b &&& 0x3F) <<< 6)
  rw [and_mask4, and_mask6, Nat.shiftLeft_eq, Nat.shiftLeft_eq] at *
  omega

/-- A four-byte sequence accepted by the decoder decodes above ASCII. -/
theorem four_byte_ge (a b c d : Nat) (h : 1 ≤ a % 8 ∨ 16 ≤ b % 64) :
    0x80 ≤ ((a &&& 0x07) <<< 18) ||| ((b &&& 0x3F) <<< 12) ||| c ||| d := by
  have h0 := le_or_left ((((a &&& 0x07) <<< 18) ||| ((b &&& 0x3F) <<< 12)) ||| c) d
  have h1 := le_or_left (((a &&& 0x07) <<< 18) ||| ((b &&& 0x3F) <<< 12)) c
  have h2 := le_or_left ((a &&& 0x07) <<< 18) ((b &&& 0x3F) <<< 12)
  have h3 := le_or_right ((a &&& 0x07) <<< 18) ((b &&& 0x3F) <<< 12)
  rw [and_mask3, and_mask6, Nat.shiftLeft_eq, Nat.shiftLeft_eq] at *
  omega

theorem first_invalid_low (b : Nat) (h1 : 0x80 ≤ b) (h2 : b < 0xC2) : first b = 0xF1 := by
  unfold first
  repeat (first | rw [if_pos (by omega)] | rw [if_neg (by omega)])

theorem first_invalid_high (b : Nat) (h : 0xF4 < b) : first b = 0xF1 := by
  unfold first
  repeat (first | rw [if_pos (by omega)] | rw [if_neg (by omega)])

theorem first_two (b : Nat) (h1 : 0xC2 ≤ b) (h2 : b < 0xE0) : first b = 0x02 := by
  unfold first
  repeat (first | rw [if_pos (by omega)] | rw [if_neg (by omega)])

theorem first_three (b : Nat) (h1 : 0xE1 ≤ b) (h2 : b < 0xF0) (h3 : b ≠ 0xED) :
    first b = 0x03 := by
  unfold first
  by_cases c : b < 0xED
  all_goals repeat (first | rw [if_pos (by omega)] | rw [if_neg (by omega)])

theorem first_four (b : Nat) (h1 : 0xF1 ≤ b) (h2 : b < 0xF4) : first b = 0x04 := by
  unfold first
  repeat (first | rw [if_pos (by omega)] | rw [if_neg (by omega)])

/-- A string that starts with a byte of `0x80` or more decodes to a rune
above ASCII (possibly `RuneError`). -/
theorem DecodeRuneInString_ge (s0 : Nat) (rest : Bytes) (h : 0x80 ≤ s0) :
    0x80 ≤ (DecodeRuneInString (s0 :: rest)).1 := by
  have a2 : (2 : Nat) &&& 7 = 2 := by decide
  have b2 : (2 : Nat) >>> 4 = 0 := by decide
  have a3 : (3 : Nat) &&& 7 = 3 := by decide
  have b3 : (3 : Nat) >>> 4 = 0 := by decide
  have a4 : (4 : Nat) &&& 7 = 4 := by decide
  have b4 : (4 : Nat) >>> 4 = 0 := by decide
  have a19 : (19 : Nat) &&& 7 = 3 := by decide
  have b19 : (19 : Nat) >>> 4 = 1 := by decide
  have a35 : (35 : Nat) &&& 7 = 3 := by decide
  have b35 : (35 : Nat) >>> 4 = 2 := by decide
  have a52 : (52 : Nat) &&& 7 = 4 := by decide
  have b52 : (52 : Nat) >>> 4 = 3 := by decide
  have a68 : (68 : Nat) &&& 7 = 4 := by decide
  have b68 : (68 : Nat) >>> 4 = 4 := by decide
  by_cases c1 : s0 < 0xC2
  · simp [DecodeRuneInString, first_invalid_low s0 h c1, RuneError]
  by_cases c2 : 0xF4 < s0
  · simp [DecodeRuneInString, first_invalid_high s0 c2, RuneError]
  by_cases c3 : s0 < 0xE0
  · simp only [DecodeRuneInString, first_two s0 (by omega) c3]
    norm_num [acceptRanges, RuneError, a2, b2]
    split_ifs <;> first | omega | (apply two_byte_ge; omega)
  by_cases c4 : s0 = 0xE0
  · subst c4
    simp only [DecodeRuneInString, show first 0xE0 = 0x13 by decide]
    norm_num [acceptRanges, RuneError, a19, b19]
    split_ifs <;> first | omega | (apply three_byte_ge; omega)
  by_cases c5 : s0 = 0xED
  · subst c5
    simp only [DecodeRuneInString, show first 0xED = 0x23 by decide]
    norm_num [acceptRanges, RuneError, a35, b35]
    split_ifs <;> first | omega | (apply three_byte_ge; omega)
  by_cases c6 : s0 < 0xF0
  · simp only [DecodeRuneInString, first_three s0 (by omega) c6 c5]
    norm_num [acceptRanges, RuneError, a3, b3]
    split_ifs <;> first | omega | (apply three_byte_ge; omega)
  by_cases c7 : s0 = 0xF0
  · subst c7
    simp only [DecodeRuneInString, show first 0xF0 = 0x34 by decide]
    norm_num [acceptRanges, RuneError, a52, b52]
    split_ifs <;> first | omega | (apply four_byte_ge; omega)
  by_cases c8 : s0 = 0xF4
  · subst c8
    simp only [DecodeRuneInString, show first 0xF4 = 0x44 by decide]
    norm_num [acceptRanges, RuneError, a68, b68]
    split_ifs <;> first | omega | (apply four_byte_ge; omega)
  · simp only [DecodeRuneInString, first_four s0 (by omega) (by omega)]
    norm_num [acceptRanges, RuneError, a4, b4]
    split_ifs <;> first | omega | (apply four_byte_ge; omega)

/-- The first rune of a string is the digit `0` only when its first byte is. -/
theorem firstRune_ne_digit_zero (b : Nat) (rest : Bytes) (hb : b ≠ 48) :
    (firstRune (b :: rest)).1 ≠ 48 := by
  unfold firstRune
  by_cases c : b < RuneSelf
  · simpa [c] using hb
  · have hge := DecodeRuneInString_ge b rest (by unfold RuneSelf at c; omega)
    simp only [c, if_false]
    omega

theorem foldOrbit_fixed (tbl : Nat → Nat) (fuel r tr : Nat) :
    foldOrbit tbl fuel r r tr = some r := by
  cases fuel <;> simp [foldOrbit]

/-- Comparison with the text `0` under case folding is plain equality, and
it needs no fuel. -/
theorem EqualFold_zero (tbl : Nat → Nat) (fuel : Nat) (s : Bytes) :
    EqualFold tbl fuel s (lit "0") = some (decide (s = lit "0")) := by
  have hl : lit "0" = [48] := by decide
  rw [hl]
  cases s with
  | nil => simp [EqualFold, EqualFoldLoop]
  | cons b rest =>
    have ht : firstRune [48] = (48, []) := by decide
    unfold EqualFold
    simp only [List.length_cons]
    rw [EqualFoldLoop]
    simp only [ht]
    by_cases hb : b = 48
    · subst hb
      have hs : firstRune (48 :: rest) = (48, rest) := by simp [firstRune, RuneSelf]
      simp [hs, EqualFoldLoop]
    · have hsr := firstRune_ne_digit_zero b rest hb
      generalize (firstRune (b :: rest)).1 = sr at hsr
      generalize (firstRune (b :: rest)).2 = s1
      have h48 : SimpleFold tbl 48 = 48 := by
        simp [SimpleFold, MaxRune, MaxASCII, asciiFold]
      by_cases hlt : 48 < sr
      · by_cases hascii : sr < RuneSelf
        · simp [hb, Ne.symm hsr, hlt, hascii]
        · simp [hb, Ne.symm hsr, hlt, hascii, h48, foldOrbit_fixed]
      · have hlt2 : sr < 48 := by omega
        have h3 : ¬ (65 ≤ sr) := by omega
        simp [hb, Ne.symm hsr, hlt, RuneSelf, h3]

/-- The tick after a successful read: it ends normally, silent on the
content `0` and speaking the sentence built from the content otherwise. -/
theorem InitializedSpeakTick_of_read (tbl : Nat → Nat) (fuel : Nat) (readOk : Bool)
    (st : Store) (s : Bytes) (h : ReadFile readOk st = some s) :
    InitializedSpeakTick tbl fuel readOk st
      = some (TickOutcome.next (if s = lit "0" then [] else [SprintfHumanFace s])) := by
  unfold InitializedSpeakTick
  rw [h]
  simp only [EqualFold_zero]
  by_cases hs : s = lit "0" <;> simp [hs]

/-! ## The count store -/

/-- Claim C1, evaluated on the code: with the file holding `12`, a completed
`SaveLog(3)` followed by the read of `InitializedSpeak` returns `32`, which
is not the decimal text of 3: the round trip fails. -/
theorem C1_roundtrip_stale_tail :
    ReadFile true (SaveLog true true 3 (some (lit "12"))).1 = some (lit "32")
      ∧ lit "32" ≠ Itoa 3 := by
  decide

/-- Claim C3, evaluated on the code: starting with no file, a completed
`SaveLog(10)` and then a completed `SaveLog(0)` leave the content `00`, not
`0`, and the next narration tick calls `Speak` with
`Human face 00 count detected`. -/
theorem C3_zero_after_ten_speaks :
    (SaveLog true true 10 none).1 = some (lit "10")
      ∧ (SaveLog true true 0 (SaveLog true true 10 none).1).1 = some (lit "00")
      ∧ lit "00" ≠ lit "0"
      ∧ InitializedSpeakTick (fun r => r) 0 true
          (SaveLog true true 0 (SaveLog true true 10 none).1).1
        = some (TickOutcome.next [lit "Human face 00 count detected"]) := by
  decide

/-- Claim C9: a successful `SaveLog(C)` with no other write in between, on a
file with content `old` (empty when the file was absent), leaves
`t ++ old.drop t.length`, where `t` is the decimal text of `C` when `C > 0`
and `0` otherwise; the length of the file becomes the larger of the two
lengths, the file never shrinks, and the content is `t` exactly when `old`
is not longer than `t`. -/
theorem C9_overwrite_in_place (C : Int) (st : Store) :
    (SaveLog true true C st).1
        = some ((if C > 0 then Itoa C else lit "0")
            ++ (st.getD []).drop (if C > 0 then Itoa C else lit "0").length)
      ∧ (∀ content, (SaveLog true true C st).1 = some content →
          content.length = max (st.getD []).length (if C > 0 then Itoa C else lit "0").length
            ∧ (st.getD []).length ≤ content.length
            ∧ (content = (if C > 0 then Itoa C else lit "0")
                ↔ (st.getD []).length ≤ (if C > 0 then Itoa C else lit "0").length)) := by
  have h : (SaveLog true true C st).1
      = some ((if C > 0 then Itoa C else lit "0")
          ++ (st.getD []).drop (if C > 0 then Itoa C else lit "0").length) := by
    cases st <;> simp [SaveLog, SaveLogOpen, SaveLogWrite, OpenFile, WriteString]
  refine ⟨h, ?_⟩
  intro content hc
  rw [h] at hc
  injection hc with hc
  subst hc
  generalize (if C > 0 then Itoa C else lit "0") = t
  refine ⟨?_, ?_, ?_⟩
  · simp only [List.length_append, List.length_drop]; omega
  · simp only [List.length_append, List.length_drop]; omega
  · rw [List.append_right_eq_self, List.drop_eq_nil_iff]

/-! ## The narration tick -/

/-- Claim C2: when the read of the store succeeds with content `s`, the tick
of `InitializedSpeak` ends normally, it calls `Speak` if and only if `s` is
not exactly `0`, and then it calls it once with the text
`Human face ` ++ `s` ++ ` count detected`. -/
theorem C2_narration_decision (tbl : Nat → Nat) (fuel : Nat) (readOk : Bool)
    (st : Store) (s : Bytes) (h : ReadFile readOk st = some s) :
    ∃ spoken, InitializedSpeakTick tbl fuel readOk st = some (TickOutcome.next spoken)
      ∧ (spoken ≠ [] ↔ s ≠ lit "0")
      ∧ (s ≠ lit "0" → spoken = [lit "Human face " ++ s ++ lit " count detected"]) := by
  rw [InitializedSpeakTick_of_read tbl fuel readOk st s h]
  by_cases hs : s = lit "0"
  · exact ⟨[], by simp [hs], by simp [hs], by simp [hs]⟩
  · exact ⟨[SprintfHumanFace s], by simp [hs], by simp [hs], by simp [SprintfHumanFace]⟩

/-- Witness of C2 at the content `00`: the tick speaks `Human face 00 count detected`. -/
theorem C2_narration_decision_witness :
    ReadFile true (some (lit "00")) = some (lit "00")
      ∧ ∃ spoken, InitializedSpeakTick (fun r => r) 0 true (some (lit "00"))
            = some (TickOutcome.next spoken)
          ∧ (spoken ≠ [] ↔ lit "00" ≠ lit "0")
          ∧ (lit "00" ≠ lit "0"
              → spoken = [lit "Human face " ++ lit "00" ++ lit " count detected"]) :=
  ⟨by decide, C2_narration_decision (fun r => r) 0 true (some (lit "00")) (lit "00") (by decide)⟩

/-- Claim C6: in a tick of `InitializedSpeak`, a failed read of the store
ends the process through `log.Fatal` with no call of `Speak` (the only
effect is the fatal log line); a successful read leaves the process and the
narration loop running. -/
theorem C6_read_failure_fatal (tbl : Nat → Nat) (fuel : Nat) (s : State) (readOk : Bool)
    (hpc : s.speakPc = SpeakPc.running) (hex : s.exited = false) :
    (ReadFile readOk s.store = none →
        InitializedSpeakTick tbl fuel readOk s.store = some TickOutcome.fatal
          ∧ step tbl fuel s (Action.speakTick readOk)
            = some { s with speakPc := SpeakPc.fatal, exited := true,
                            events := s.events ++ [Event.logFatal] })
      ∧ (∀ content, ReadFile readOk s.store = some content →
          ∃ s1, step tbl fuel s (Action.speakTick readOk) = some s1
            ∧ s1.exited = false ∧ s1.speakPc = SpeakPc.running) := by
  constructor
  · intro hr
    have ht : InitializedSpeakTick tbl fuel readOk s.store = some TickOutcome.fatal := by
      simp [InitializedSpeakTick, hr]
    refine ⟨ht, ?_⟩
    simp [step, speakTick, hex, hpc, ht]
  · intro content hr
    have ht := InitializedSpeakTick_of_read tbl fuel readOk s.store content hr
    refine ⟨{ s with events := s.events
        ++ (if content = lit "0" then [] else [SprintfHumanFace content]).map Event.speak },
      ?_, hex, hpc⟩
    simp [step, speakTick, hex, hpc, ht]

/-! ## Invariant of the goroutine structure -/

theorem Inv_init (st : Store) : Inv (init st) := by
  simp [Inv, init]

/-- A step is taken only while the process is alive. -/
theorem step_alive (tbl : Nat → Nat) (fuel : Nat) (s s1 : State) (a : Action)
    (h : step tbl fuel s a = some s1) : s.exited = false := by
  cases hex : s.exited with
  | false => rfl
  | true => simp [step, hex] at h

theorem Inv_step (tbl : Nat → Nat) (fuel : Nat) (s s1 : State) (a : Action)
    (hi : Inv s) (h : step tbl fuel s a = some s1) : Inv s1 := by
  have hex := step_alive tbl fuel s s1 a h
  unfold step at h
  simp only [hex, Bool.false_eq_true, if_false] at h
  obtain ⟨i1, i2, i3, i4, i5, i6, i7, i8⟩ := hi
  cases a with
  | mainAdd =>
    simp only [mainAdd] at h
    split at h
    · rename_i hm
      injection h with h; subst h
      simp_all [Inv]
    · simp at h
  | mainGoCamera =>
    simp only [mainGoCamera] at h
    split at h
    · rename_i hm
      injection h with h; subst h
      simp_all [Inv]
    · simp at h
  | mainGoSpeak =>
    simp only [mainGoSpeak] at h
    split at h
    · rename_i hm
      injection h with h; subst h
      simp_all [Inv]
    · simp at h
  | mainWait =>
    simp only [mainWait] at h
    split at h
    · rename_i hm
      exfalso
      have := i7 (by simp [hm.1])
      rw [hm.2] at this
      split_ifs at this <;> omega
    · simp at h
  | camOpen a b =>
    simp only [camOpen] at h
    have hm : s.mainPc ≠ MainPc.start ∧ s.mainPc ≠ MainPc.added := by
      constructor <;> intro hc <;> simp_all
    repeat' split at h
    all_goals first
      | (simp at h; done)
      | (injection h with h; subst h; simp_all [Inv])
  | camCycle f =>
    simp only [camCycle] at h
    have hm : s.mainPc ≠ MainPc.start ∧ s.mainPc ≠ MainPc.added := by
      constructor <;> intro hc <;> simp_all
    split at h
    · injection h with h; subst h
      cases (cameraCycle f).control <;> simp_all [Inv]
    · simp at h
  | camDone =>
    simp only [camDone] at h
    have hm : s.mainPc ≠ MainPc.start ∧ s.mainPc ≠ MainPc.added := by
      constructor <;> intro hc <;> simp_all
    split at h
    · rename_i hc
      have hw : s.wg = 2 := by
        have := i7 hm.1
        simpa [hc] using this
      split at h
      · omega
      · injection h with h; subst h
        simp_all [Inv]
    · simp at h
  | saveOpen i ok =>
    simp only [saveOpen] at h
    split at h
    · injection h with h; subst h
      exact ⟨i1, i2, i3, i4, i5, i6, i7, i8⟩
    · simp at h
  | saveWrite i ok =>
    simp only [saveWrite] at h
    split at h
    · injection h with h; subst h
      exact ⟨i1, i2, i3, i4, i5, i6, i7, i8⟩
    · simp at h
  | speakTick ok =>
    simp only [speakTick] at h
    split at h
    · rename_i hc
      split at h
      · simp at h
      · injection h with h; subst h
        have hm : s.mainPc = MainPc.waiting := by
          by_contra hn
          have := i4 hn
          simp_all
        simp_all [Inv]
      · injection h with h; subst h
        exact ⟨i1, i2, i3, i4, i5, i6, i7, i8⟩
    · simp at h

theorem Inv_run (tbl : Nat → Nat) (fuel : Nat) (acts : List Action) :
    ∀ (s s1 : State), Inv s → run tbl fuel s acts = some s1 → Inv s1 := by
  induction acts with
  | nil => intro s s1 hi h; simp only [run] at h; injection h with h; subst h; exact hi
  | cons a rest ih =>
    intro s s1 hi h
    simp only [run] at h
    cases hs : step tbl fuel s a with
    | none => rw [hs] at h; simp at h
    | some s2 =>
      rw [hs] at h
      exact ih s2 s1 (Inv_step tbl fuel s s2 a hi hs) h

theorem Inv_of_Reachable (tbl : Nat → Nat) (fuel : Nat) (s : State)
    (h : Reachable tbl fuel s) : Inv s := by
  obtain ⟨st, acts, hr⟩ := h
  exact Inv_run tbl fuel acts (init st) s (Inv_init st) hr

/-- No step restarts a camera goroutine that has returned. -/
theorem step_returnedEarly (tbl : Nat → Nat) (fuel : Nat) (s s1 : State) (a : Action)
    (hi : Inv s) (hpc : s.camPc = CamPc.returnedEarly) (h : step tbl fuel s a = some s1) :
    s1.camPc = CamPc.returnedEarly := by
  have hex := step_alive tbl fuel s s1 a h
  unfold step at h
  simp only [hex, Bool.false_eq_true, if_false] at h
  obtain ⟨i1, i2, i3, i4, i5, i6, i7, i8⟩ := hi
  have hm : s.mainPc ≠ MainPc.added := by
    intro hc
    have := i3 (Or.inr hc)
    rw [hpc] at this
    exact absurd this (by decide)
  cases a <;>
    simp only [mainAdd, mainGoCamera, mainGoSpeak, mainWait, camOpen, camCycle, camDone,
      saveOpen, saveWrite, speakTick, hpc] at h
  all_goals (repeat' split at h)
  all_goals first
    | (simp at h; done)
    | (injection h with h; subst h; first | rfl | exact hpc)
    | contradiction

theorem run_returnedEarly (tbl : Nat → Nat) (fuel : Nat) (acts : List Action) :
    ∀ (s s1 : State), Inv s → s.camPc = CamPc.returnedEarly →
      run tbl fuel s acts = some s1 → s1.camPc = CamPc.returnedEarly := by
  induction acts with
  | nil => intro s s1 _ hpc h; simp only [run] at h; injection h with h; subst h; exact hpc
  | cons a rest ih =>
    intro s s1 hi hpc h
    simp only [run] at h
    cases hs : step tbl fuel s a with
    | none => rw [hs] at h; simp at h
    | some s2 =>
      rw [hs] at h
      exact ih s2 s1 (Inv_step tbl fuel s s2 a hi hs)
        (step_returnedEarly tbl fuel s s2 a hi hpc hs) h

theorem running2_reachable (tbl : Nat → Nat) (fuel : Nat) : Reachable tbl fuel running2 :=
  ⟨some (lit "2"), startUp, rfl⟩

/-! ## One cycle of the detection loop -/

/-- Claim C4: a cycle of the loop of `CameraInitialization` whose frame is
read successfully but is empty has no effect at all: no detection, no
`SaveLog` started, nothing drawn or shown (the cycle yields no event and no
goroutine), the state of the process, store included, is unchanged, the
camera goroutine is still in its loop, and the next cycle can run. -/
theorem C4_empty_frame_skipped (tbl : Nat → Nat) (fuel : Nat) (s : State) (f : Frame)
    (hex : s.exited = false) (hpc : s.camPc = CamPc.loop)
    (hread : f.readOk = true) (hempty : f.empty = true) :
    cameraCycle f = ⟨[], [], Control.next⟩
      ∧ step tbl fuel s (Action.camCycle f) = some s
      ∧ ∀ g, ∃ s2, step tbl fuel s (Action.camCycle g) = some s2 := by
  have hc : cameraCycle f = ⟨[], [], Control.next⟩ := by
    simp [cameraCycle, hread, hempty]
  refine ⟨hc, ?_, ?_⟩
  · cases s
    simp_all [step, camCycle]
  · intro g
    simp [step, camCycle, hex, hpc]

/-- Witness of C4 at `running2` with an empty frame. -/
theorem C4_empty_frame_skipped_witness :
    (running2.exited = false ∧ running2.camPc = CamPc.loop)
      ∧ cameraCycle ⟨true, true, [], 0, -1⟩ = ⟨[], [], Control.next⟩
      ∧ step (fun r => r) 0 running2 (Action.camCycle ⟨true, true, [], 0, -1⟩) = some running2
      ∧ ∀ g, ∃ s2, step (fun r => r) 0 running2 (Action.camCycle g) = some s2 :=
  ⟨⟨rfl, rfl⟩,
    C4_empty_frame_skipped (fun r => r) 0 running2 ⟨true, true, [], 0, -1⟩ rfl rfl rfl rfl⟩

/-- Claim C5: in a cycle of the loop of `CameraInitialization` where
`webcam.Read` fails, the goroutine returns: the detector is not run and no
`SaveLog` is started (the only effect is the message), the store, the
pending writes, the counter and the narration loop are untouched, the
process stays alive, and the camera goroutine never runs again in any
continuation. -/
theorem C5_read_failure_ends_loop (tbl : Nat → Nat) (fuel : Nat) (s : State) (f : Frame)
    (hr : Reachable tbl fuel s) (hex : s.exited = false) (hpc : s.camPc = CamPc.loop)
    (hread : f.readOk = false) :
    cameraCycle f = ⟨[Event.printCannotRead], [], Control.ret⟩
      ∧ ∃ s1, step tbl fuel s (Action.camCycle f) = some s1
        ∧ s1 = { s with camPc := CamPc.returnedEarly,
                        events := s.events ++ [Event.printCannotRead] }
        ∧ s1.store = s.store ∧ s1.tasks = s.tasks ∧ s1.wg = s.wg
        ∧ s1.speakPc = s.speakPc ∧ s1.exited = false
        ∧ (∀ g, step tbl fuel s1 (Action.camCycle g) = none)
        ∧ step tbl fuel s1 Action.camDone = none
        ∧ (∀ acts s2, run tbl fuel s1 acts = some s2 → s2.camPc = CamPc.returnedEarly) := by
  have hc : cameraCycle f = ⟨[Event.printCannotRead], [], Control.ret⟩ := by
    simp [cameraCycle, hread]
  have hs : step tbl fuel s (Action.camCycle f)
      = some { s with camPc := CamPc.returnedEarly,
                      events := s.events ++ [Event.printCannotRead] } := by
    simp [step, camCycle, hex, hpc, hc]
  refine ⟨hc, _, hs, rfl, rfl, rfl, rfl, rfl, hex, ?_, ?_, ?_⟩
  · intro g
    simp [step, camCycle]
  · simp [step, camDone]
  · intro acts s2 h2
    exact run_returnedEarly tbl fuel acts _ s2
      (Inv_step tbl fuel s _ _ (Inv_of_Reachable tbl fuel s hr) hs) rfl h2

/-- Witness of C5 at `running2` with a failed read of the camera. -/
theorem C5_read_failure_ends_loop_witness :
    (running2.exited = false ∧ running2.camPc = CamPc.loop)
      ∧ cameraCycle ⟨false, false, [], 0, -1⟩ = ⟨[Event.printCannotRead], [], Control.ret⟩
      ∧ ∃ s1, step (fun r => r) 0 running2 (Action.camCycle ⟨false, false, [], 0, -1⟩) = some s1
        ∧ s1 = { running2 with camPc := CamPc.returnedEarly,
                               events := running2.events ++ [Event.printCannotRead] }
        ∧ s1.store = running2.store ∧ s1.tasks = running2.tasks ∧ s1.wg = running2.wg
        ∧ s1.speakPc = running2.speakPc ∧ s1.exited = false
        ∧ (∀ g, step (fun r => r) 0 s1 (Action.camCycle g) = none)
        ∧ step (fun r => r) 0 s1 Action.camDone = none
        ∧ (∀ acts s2, run (fun r => r) 0 s1 acts = some s2 → s2.camPc = CamPc.returnedEarly) :=
  ⟨⟨rfl, rfl⟩,
    C5_read_failure_ends_loop (fun r => r) 0 running2 ⟨false, false, [], 0, -1⟩
      (running2_reachable (fun r => r) 0) rfl rfl rfl⟩

/-- Witness of C6 at `running2`, whose file exists: a failed read is fatal,
the successful read leaves the process running. -/
theorem C6_read_failure_fatal_witness :
    (running2.speakPc = SpeakPc.running ∧ running2.exited = false)
      ∧ (ReadFile false running2.store = none →
          InitializedSpeakTick (fun r => r) 0 false running2.store = some TickOutcome.fatal
            ∧ step (fun r => r) 0 running2 (Action.speakTick false)
              = some { running2 with speakPc := SpeakPc.fatal, exited := true,
                                     events := running2.events ++ [Event.logFatal] })
      ∧ (∀ content, ReadFile false running2.store = some content →
          ∃ s1, step (fun r => r) 0 running2 (Action.speakTick false) = some s1
            ∧ s1.exited = false ∧ s1.speakPc = SpeakPc.running) :=
  ⟨⟨rfl, rfl⟩, C6_read_failure_fatal (fun r => r) 0 running2 false rfl rfl⟩

/-! ## Process lifetime and the `WaitGroup` -/

/-- How a step changes the counter of the `WaitGroup`: `wg.Add(2)` of `main`
raises it by two, the `wg.Done()` of `CameraInitialization`, taken after the
`break`, lowers it by one, every other step leaves it alone. -/
theorem step_wg (tbl : Nat → Nat) (fuel : Nat) (s s1 : State) (a : Action)
    (h : step tbl fuel s a = some s1) :
    (a = Action.mainAdd ∧ s1.wg = s.wg + 2) ∨ s1.wg = s.wg
      ∨ (a = Action.camDone ∧ s.camPc = CamPc.atDone ∧ s1.camPc = CamPc.finished
          ∧ s1.wg = s.wg - 1) := by
  have hex := step_alive tbl fuel s s1 a h
  unfold step at h
  simp only [hex, Bool.false_eq_true, if_false] at h
  cases a <;>
    simp only [mainAdd, mainGoCamera, mainGoSpeak, mainWait, camOpen, camCycle, camDone,
      saveOpen, saveWrite, speakTick] at h
  all_goals (repeat' split at h)
  all_goals first
    | (simp at h; done)
    | (injection h with h; subst h; simp_all)

/-- The camera goroutine arrives before its `wg.Done()` only through the
`break` of a cycle whose frame was read, was not empty, and after which a
key was pressed. -/
theorem step_atDone (tbl : Nat → Nat) (fuel : Nat) (s s1 : State) (a : Action)
    (h : step tbl fuel s a = some s1) (h1 : s1.camPc = CamPc.atDone)
    (h0 : s.camPc ≠ CamPc.atDone) :
    ∃ f, a = Action.camCycle f ∧ f.readOk = true ∧ f.empty = false ∧ f.key ≥ 0 := by
  have hex := step_alive tbl fuel s s1 a h
  unfold step at h
  simp only [hex, Bool.false_eq_true, if_false] at h
  cases a with
  | camCycle f =>
    refine ⟨f, rfl, ?_⟩
    simp only [camCycle] at h
    split at h
    · injection h with h; subst h
      simp only [cameraCycle] at h1
      cases hr : f.readOk <;> cases he : f.empty <;> simp [hr, he] at h1
      by_cases hk : f.key ≥ 0
      · exact ⟨rfl, rfl, hk⟩
      · simp [hk] at h1
    · simp at h
  | _ =>
    exfalso
    simp only [mainAdd, mainGoCamera, mainGoSpeak, mainWait, camOpen, camDone,
      saveOpen, saveWrite, speakTick] at h
    repeat' split at h
    all_goals first
      | (simp at h; done)
      | (injection h with h; subst h; simp_all)

/-- Claim C8: there is an execution in which the cycle of an older frame
starts `SaveLog(3)`, the cycle of a newer frame starts `SaveLog(2)`, both
goroutines are asleep at the same time, the write of 2 completes first and
the write of 3 last, and the store ends with `3` although the latest
detection was 2. With the same starts and the writes completing in the
other order the store ends with `2`: the order of completion decides. -/
theorem C8_out_of_order_write (tbl : Nat → Nat) (fuel : Nat) :
    (run tbl fuel (init none)
        (startUp ++ [Action.camCycle (facesFrame 3), Action.camCycle (facesFrame 2),
          Action.saveOpen 0 true, Action.saveOpen 1 true])).map
        (fun s => (s.tasks, s.events.filter
          (fun e => decide (e = Event.goSaveLog 3 ∨ e = Event.goSaveLog 2))))
      = some ([SaveTask.sleeping ⟨lit "3", true⟩, SaveTask.sleeping ⟨lit "2", true⟩],
          [Event.goSaveLog 3, Event.goSaveLog 2])
      ∧ (run tbl fuel (init none)
        (startUp ++ [Action.camCycle (facesFrame 3), Action.camCycle (facesFrame 2),
          Action.saveOpen 0 true, Action.saveOpen 1 true,
          Action.saveWrite 1 true, Action.saveWrite 0 true])).map
        (fun s => (s.tasks, s.store))
      = some ([SaveTask.finished, SaveTask.finished], some (lit "3"))
      ∧ (run tbl fuel (init none)
        (startUp ++ [Action.camCycle (facesFrame 3), Action.camCycle (facesFrame 2),
          Action.saveOpen 0 true, Action.saveOpen 1 true,
          Action.saveWrite 0 true, Action.saveWrite 1 true])).map
        (fun s => (s.tasks, s.store))
      = some ([SaveTask.finished, SaveTask.finished], some (lit "2")) := by
  refine ⟨?_, ?_, ?_⟩ <;> rfl

/-- Claim C10: in every reachable state, the counter is 2 right after
`wg.Add(2)` of `main` and at least 1 from then on, `main` has not returned
and `wg.Wait()` cannot return; a step lowers the counter only as the
`wg.Done()` of `CameraInitialization`, by one, from the point after the
`break`, which the goroutine reaches only through a cycle with a frame read,
not empty, and a key pressed; after that `wg.Done()` the goroutine is
finished and stays so, so that the counter is never lowered again. -/
theorem C10_waitgroup_never_zero (tbl : Nat → Nat) (fuel : Nat) (s : State)
    (hr : Reachable tbl fuel s) :
    (s.mainPc = MainPc.added → s.wg = 2)
      ∧ (s.mainPc ≠ MainPc.start → 1 ≤ s.wg)
      ∧ s.mainPc ≠ MainPc.returned
      ∧ step tbl fuel s Action.mainWait = none
      ∧ (∀ a s1, step tbl fuel s a = some s1 → s1.wg < s.wg →
          a = Action.camDone ∧ s.camPc = CamPc.atDone ∧ s1.camPc = CamPc.finished
            ∧ s1.wg = s.wg - 1)
      ∧ (∀ a s1, step tbl fuel s a = some s1 → s1.camPc = CamPc.atDone →
          s.camPc ≠ CamPc.atDone →
          ∃ f, a = Action.camCycle f ∧ f.readOk = true ∧ f.empty = false ∧ f.key ≥ 0)
      ∧ (∀ a s1, step tbl fuel s a = some s1 → s.camPc = CamPc.finished →
          s1.camPc = CamPc.finished ∧ s1.wg = s.wg) := by
  have hinv := Inv_of_Reachable tbl fuel s hr
  obtain ⟨i1, i2, i3, i4, i5, i6, i7, i8⟩ := hinv
  have hpos : s.mainPc ≠ MainPc.start → 1 ≤ s.wg := by
    intro hm
    have := i7 hm
    split_ifs at this <;> omega
  refine ⟨?_, hpos, i1, ?_, ?_, ?_, ?_⟩
  · intro hm
    have h7 := i7 (by simp [hm])
    have h3 := i3 (Or.inr hm)
    simpa [h3] using h7
  · cases hw : step tbl fuel s Action.mainWait with
    | none => rfl
    | some s1 =>
      exfalso
      have hex := step_alive tbl fuel s s1 _ hw
      unfold step at hw
      simp only [hex, Bool.false_eq_true, if_false, mainWait] at hw
      split at hw
      · rename_i hc
        have := hpos (by simp [hc.1])
        omega
      · simp at hw
  · intro a s1 h hlt
    rcases step_wg tbl fuel s s1 a h with ⟨_, h2⟩ | h2 | h2
    · omega
    · omega
    · exact h2
  · intro a s1 h h1 h0
    exact step_atDone tbl fuel s s1 a h h1 h0
  · intro a s1 h hf
    have hi1 := Inv_step tbl fuel s s1 a ⟨i1, i2, i3, i4, i5, i6, i7, i8⟩ h
    have hm : s.mainPc ≠ MainPc.start := by
      intro hc
      have := i3 (Or.inl hc)
      simp [hf] at this
    have hw : s.wg = 1 := by simpa [hf] using i7 hm
    have hm1 : s1.mainPc ≠ MainPc.start := by
      have hex := step_alive tbl fuel s s1 a h
      intro hc
      unfold step at h
      simp only [hex, Bool.false_eq_true, if_false] at h
      cases a <;>
        simp only [mainAdd, mainGoCamera, mainGoSpeak, mainWait, camOpen, camCycle, camDone,
          saveOpen, saveWrite, speakTick] at h
      all_goals (repeat' split at h)
      all_goals first
        | (simp at h; done)
        | (injection h with h; subst h; simp_all)
    rcases step_wg tbl fuel s s1 a h with ⟨ha, _⟩ | h2 | h2
    · exfalso
      subst ha
      have hex := step_alive tbl fuel s s1 _ h
      unfold step at h
      simp only [hex, Bool.false_eq_true, if_false, mainAdd] at h
      split at h
      · rename_i hc; exact hm hc
      · simp at h
    · refine ⟨?_, h2⟩
      have h7 := hi1.2.2.2.2.2.2.1 hm1
      by_contra hn
      simp [hn] at h7
      omega
    · rw [hf] at h2
      exact absurd h2.2.1 (by decide)

/-- Witness of C10 at `running2`, where the counter is 2. -/
theorem C10_waitgroup_never_zero_witness :
    (running2.mainPc = MainPc.added → running2.wg = 2)
      ∧ (running2.mainPc ≠ MainPc.start → 1 ≤ running2.wg)
      ∧ running2.mainPc ≠ MainPc.returned
      ∧ step (fun r => r) 0 running2 Action.mainWait = none
      ∧ (∀ a s1, step (fun r => r) 0 running2 a = some s1 → s1.wg < running2.wg →
          a = Action.camDone ∧ running2.camPc = CamPc.atDone ∧ s1.camPc = CamPc.finished
            ∧ s1.wg = running2.wg - 1)
      ∧ (∀ a s1, step (fun r => r) 0 running2 a = some s1 → s1.camPc = CamPc.atDone →
          running2.camPc ≠ CamPc.atDone →
          ∃ f, a = Action.camCycle f ∧ f.readOk = true ∧ f.empty = false ∧ f.key ≥ 0)
      ∧ (∀ a s1, step (fun r => r) 0 running2 a = some s1 →
          running2.camPc = CamPc.finished →
          s1.camPc = CamPc.finished ∧ s1.wg = running2.wg) :=
  C10_waitgroup_never_zero (fun r => r) 0 running2 (running2_reachable (fun r => r) 0)

end FaceCount
